import Mathlib

/-!
Verification of the Site-Report backend (`src/Backend/index.js`, second
revision: the in-memory report store, the report-creation / analyze /
patch / PDF endpoints, and the `generateFormattedPDF` assembler).

Text is modelled as `List Char`; JavaScript string operations
(`split`, `trim`, `includes`, regex scans) are embedded as executable
functions on character lists.
-/

namespace SiteReport

/-- Text is a list of characters (one JS string). -/
abbrev Text := List Char

/-- JS whitespace class (the characters `\s` matches that occur in practice:
space, tab, newline, carriage return, form feed, vertical tab). -/
def isSpaceJS (c : Char) : Bool :=
  c = ' ' || c = '\t' || c = '\n' || c = '\r' || c = '\x0b' || c = '\x0c'

/-- JS `String.prototype.trim`: drop leading and trailing whitespace. -/
def trimText (l : Text) : Text :=
  ((l.dropWhile isSpaceJS).reverse.dropWhile isSpaceJS).reverse

/-- JS `s.replace(/\*\/g, '').trim()` as used throughout the assembler:
remove every asterisk, then trim. -/
def stripTrim (l : Text) : Text :=
  trimText (l.filter (fun c => c ≠ '*'))

/-- Index of the first occurrence of `pat` in `s` (JS `indexOf` / the start
index of the first regex-literal match), `none` if `pat` never occurs. -/
def findSub (pat : Text) : Text → Option Nat
  | [] => if pat = [] then some 0 else none
  | c :: rest =>
    if pat.isPrefixOf (c :: rest) then some 0
    else (findSub pat rest).map (· + 1)

/-- JS `String.prototype.includes`. -/
def hasSub (pat s : Text) : Bool := (findSub pat s).isSome

/-- JS `String.prototype.split` with a string separator, fuel-bounded
(the fuel `s.length + 1` always suffices for a non-empty separator). -/
def splitOnSubF : Nat → Text → Text → List Text
  | 0, _, s => [s]
  | fuel + 1, sep, s =>
    match findSub sep s with
    | none => [s]
    | some i => s.take i :: splitOnSubF fuel sep (s.drop (i + sep.length))

/-- JS `s.split(sep)` for a non-empty string separator. -/
def splitOnSub (sep s : Text) : List Text := splitOnSubF (s.length + 1) sep s

/-- JS `s.split('\n')`: the list of newline-separated line fragments. -/
def linesOf : Text → List Text
  | [] => [[]]
  | c :: rest =>
    if c = '\n' then [] :: linesOf rest
    else (c :: (linesOf rest).headI) :: (linesOf rest).tail

/-! ## Narrative section parsing

`generateFormattedPDF` splits `report.aiReport` at every match of the
regex `/Photo\s+\d+:/gi` (`matchAll`); each section runs from one match
start to the next match start (or end of text) and is trimmed. -/

/-- Length consumed by `\s+\d+:` at the head of `l` (greedy whitespace run,
then greedy digit run, then a colon), or `none` if it does not match.
Since `\s`, `\d` and `:` are pairwise disjoint character classes, greedy
matching with backtracking reduces to maximal runs. -/
def markerTailLen (l : Text) : Option Nat :=
  let w := (l.takeWhile isSpaceJS).length
  if w = 0 then none
  else
    let rest := l.drop w
    let d := (rest.takeWhile Char.isDigit).length
    if d = 0 then none
    else
      match rest.drop d with
      | ':' :: _ => some (w + d + 1)
      | _ => none

/-- Length of a `/Photo\s+\d+:/i` match starting at the head of `l`,
or `none` ("Photo" is matched case-insensitively). -/
def markerLenAt (l : Text) : Option Nat :=
  match l with
  | a :: b :: c :: d :: e :: rest =>
    if ([a, b, c, d, e].map Char.toLower) = ("photo").data then
      (markerTailLen rest).map (· + 5)
    else none
  | _ => none

/-- The `matchAll` scan: walk the text left to right; at a match record its
absolute position and jump past it, otherwise advance one character.
Fuel-bounded by the text length, which always suffices. -/
def scanMarkersF : Nat → Text → Nat → List Nat
  | 0, _, _ => []
  | _ + 1, [], _ => []
  | fuel + 1, c :: rest, p =>
    match markerLenAt (c :: rest) with
    | some n => p :: scanMarkersF fuel ((c :: rest).drop n) (p + n)
    | none => scanMarkersF fuel rest (p + 1)

/-- Start positions of all `/Photo\s+\d+:/gi` matches in `t`. -/
def markerPositions (t : Text) : List Nat := scanMarkersF t.length t 0

/-- Cut `t` at the given ascending match positions: section `i` runs from
position `i` to position `i+1` (or end of text), trimmed — exactly
`report.aiReport.substring(matches[i].index, matches[i+1].index).trim()`. -/
def sectionsAt (t : Text) : List Nat → List Text
  | [] => []
  | p :: ps =>
    match ps with
    | [] => [trimText (t.drop p)]
    | q :: _ => trimText ((t.drop p).take (q - p)) :: sectionsAt t ps

/-- Split one narrative text into its `Photo N:`-delimited sections. -/
def parseSections (t : Text) : List Text := sectionsAt t (markerPositions t)

/-! ## Section field extraction

For each of the five labels the assembler runs
`section.match(/<Label>:(.+?)(?=<other four labels>|$)/s)` and, when the
capture exists, renders `capture.replace(/\*\/g, '').trim()`. -/

/-- The regex engine's lazy capture for `(.+?)(?=alt|$)` starting right
after the matched label: consume characters one at a time (at least one)
and stop as soon as the lookahead — one of `others` starts here, or end of
input — succeeds. Returns `none` only on empty input (`.+` needs a
character). -/
def engineCapture (others : List Text) : Text → Option Text
  | [] => none
  | c :: rest =>
    if rest = [] || others.any (fun o => o.isPrefixOf rest) then some [c]
    else (engineCapture others rest).map (c :: ·)

/-- One field extraction as the source performs it: find the first
occurrence of the label, lazily capture from just after it, then strip
asterisks and trim. -/
def extractField (lab : Text) (others : List Text) (s : Text) : Option Text :=
  match findSub lab s with
  | none => none
  | some i => (engineCapture others (s.drop (i + lab.length))).map stripTrim

/-- The five breakdown field names. -/
inductive FieldName
  | problem
  | solution
  | priority
  | cost
  | safety
deriving DecidableEq

/-- Label text of a field. -/
def labelOf : FieldName → Text
  | .problem => ("Problem Description:").data
  | .solution => ("Recommended Solution:").data
  | .priority => ("Priority Level:").data
  | .cost => ("Estimated Cost Range:").data
  | .safety => ("Safety Concerns:").data

/-- The other four labels, in the order they appear in the source's
lookahead alternation for each field. -/
def othersOf : FieldName → List Text
  | .problem => [labelOf .solution, labelOf .priority, labelOf .cost, labelOf .safety]
  | .solution => [labelOf .problem, labelOf .priority, labelOf .cost, labelOf .safety]
  | .priority => [labelOf .problem, labelOf .solution, labelOf .cost, labelOf .safety]
  | .cost => [labelOf .problem, labelOf .solution, labelOf .priority, labelOf .safety]
  | .safety => [labelOf .problem, labelOf .solution, labelOf .priority, labelOf .cost]

/-- A rendered breakdown field: its name and the stripped value text. -/
structure FieldOut where
  name : FieldName
  value : Text
deriving DecidableEq

/-- The source renders the five fields in this fixed order, each only when
its regex matched. -/
def extractAllFields (sec : Text) : List FieldOut :=
  [FieldName.problem, .solution, .priority, .cost, .safety].filterMap
    (fun n => (extractField (labelOf n) (othersOf n) sec).map (fun v => ⟨n, v⟩))

/-! ## Data model -/

/-- One evidence item as stored by the creation handler:
`{ path, description, type, transcription }`. -/
structure Photo where
  path : String
  description : String
  type : String
  transcription : String
deriving DecidableEq

/-- A stored report (the fields the handlers read and write; `createdAt`
is never consulted by any modelled operation). -/
structure Report where
  id : String
  jobName : String
  clientName : String
  address : String
  date : String
  photos : List Photo
  status : String
  aiReport : Option String
deriving DecidableEq

/-- JS truthiness of the nullable `report.aiReport` string:
`null` and the empty string are falsy. -/
def truthyOpt : Option String → Bool
  | none => false
  | some t => t ≠ ""

/-! ## Report title (`generateFormattedPDF`, report-title extraction)

`let reportTitle = report.jobName || 'Property Inspection Report';
 if (report.aiReport) { const firstLine = report.aiReport.split('\n')[0].trim();
   if (firstLine && firstLine.length > 10) reportTitle = firstLine; }` -/

/-- The assembler's report title. -/
def reportTitleT (jobName : String) (ai : Option String) : Text :=
  let base := if jobName.data ≠ [] then jobName.data
              else ("Property Inspection Report").data
  if truthyOpt ai then
    let t := (ai.getD "").data
    let firstLine := trimText (linesOf t).headI
    if firstLine ≠ [] ∧ firstLine.length > 10 then firstLine else base
  else base

/-! ## Photo grids -/

/-- Disk state of one referenced image path: absent, readable, or a file
whose read/draw throws inside the grid's try block. -/
inductive FileState
  | missing
  | ok
  | corrupt
deriving DecidableEq

/-- The content rendered in one grid cell. -/
inductive Cell
  | image (path : String)
  | missingFile
  | renderError
deriving DecidableEq

/-- `try { if (fs.existsSync(photo.path)) draw else missing-placeholder }
catch { error-placeholder }` for one cell; a throw can only come from the
draw of an existing file. -/
def renderCell (fs : String → FileState) (p : String) : Cell :=
  if fs p ≠ FileState.missing then
    match fs p with
    | .corrupt => .renderError
    | _ => .image p
  else .missingFile

/-- A grid cell together with the `Photo N` caption printed under it. -/
structure GridCell where
  cell : Cell
  label : Text
deriving DecidableEq

/-- The `forEach((photo, idx) => ...)` grid loop, carrying the running
photo index `base` so captions read `Photo base+1`, `Photo base+2`, …. -/
def gridFrom (fs : String → FileState) : Nat → List Photo → List GridCell
  | _, [] => []
  | base, p :: rest =>
    ⟨renderCell fs p.path, ("Photo " ++ toString (base + 1)).data⟩
      :: gridFrom fs (base + 1) rest

/-! ## Breakdown entries -/

/-- Body of one breakdown entry: either the (possibly empty) list of
label-extracted fields, or — when no section string was available for this
index — the photo's own description rendered after a bold `Description:`
label. -/
inductive EntryBody
  | fields (fs : List FieldOut)
  | plainDesc (d : Text)
deriving DecidableEq

/-- One breakdown entry: the bold `Photo N:` header and its body. -/
structure Entry where
  header : Text
  body : EntryBody
deriving DecidableEq

/-- `const section = photoSections[idx] || ''; if (section) {render fields}
else {render photo.description || ' No description provided.'}`. -/
def mkEntry (idx : Nat) (p : Photo) (sec : Text) : Entry :=
  { header := ("Photo " ++ toString (idx + 1) ++ ":").data
    body :=
      if sec ≠ [] then .fields (extractAllFields sec)
      else .plainDesc
        (if p.description ≠ "" then p.description.data
         else (" No description provided.").data) }

/-- The `report.photos.forEach((photo, idx) => ...)` breakdown loop; the
section for index `idx` is looked up positionally in `secs`. -/
def entriesGo (secs : List Text) : Nat → List Photo → List Entry
  | _, [] => []
  | i, p :: rest => mkEntry i p (secs[i]?.getD []) :: entriesGo secs (i + 1) rest

/-- The parsed (pre-fallback) section list: empty when `aiReport` is falsy,
else the `Photo N:` split of the whole AI text. -/
def parsedSectionsOf (ai : Option String) : List Text :=
  if truthyOpt ai then parseSections (ai.getD "").data else []

/-- `Photo ${idx+1}:\n${photo.description || 'No description provided.'}` -/
def syntheticSections : Nat → List Photo → List Text
  | _, [] => []
  | i, p :: rest =>
    ("Photo " ++ toString (i + 1) ++ ":\n"
      ++ (if p.description ≠ "" then p.description else "No description provided.")).data
      :: syntheticSections (i + 1) rest

/-- `if (photoSections.length === 0 && report.photos.length > 0)` — replace
an empty parse result by the synthetic per-photo sections. -/
def photoSectionsOf (ai : Option String) (photos : List Photo) : List Text :=
  let parsed := parsedSectionsOf ai
  if parsed.length = 0 ∧ photos.length > 0 then syntheticSections 0 photos else parsed

/-! ## Recommended services and additional notes -/

/-- Page-3 `Recommended Services` text:
split at `'Recommended Services:'`, take part 1, optionally cut at
`'Additional Notes:'`; default when absent or empty. -/
def servicesOf (ai : Option String) : Text :=
  let dflt := ("No recommended services to be added.").data
  if truthyOpt ai then
    let t := (ai.getD "").data
    if hasSub ("Recommended Services:").data t then
      let sec := ((splitOnSub ("Recommended Services:").data t)[1]?).getD []
      if sec ≠ [] ∧ hasSub ("Additional Notes:").data sec then
        trimText (((splitOnSub ("Additional Notes:").data sec)[0]?).getD [])
      else if sec ≠ [] then trimText sec
      else dflt
    else dflt
  else dflt

/-- Page-3 `Additional Notes` text. -/
def notesOf (ai : Option String) : Text :=
  let dflt := ("No additional project notes at this time.").data
  if truthyOpt ai then
    let t := (ai.getD "").data
    if hasSub ("Additional Notes:").data t then
      let n := trimText (((splitOnSub ("Additional Notes:").data t)[1]?).getD [])
      if n ≠ [] then n else dflt
    else dflt
  else dflt

/-! ## The assembled document -/

/-- The structured content `generateFormattedPDF` lays out: title,
first-page photo grid (at most 9 cells), overflow grid, the per-photo
breakdown entries, and the two page-3 text sections. -/
structure SiteDoc where
  title : Text
  page1Cells : List GridCell
  extraCells : List GridCell
  breakdown : List Entry
  recommendedServices : Text
  additionalNotes : Text
deriving DecidableEq

/-- `generateFormattedPDF` as a pure function of the report and the state
of the referenced image files. -/
def assembleDoc (fs : String → FileState) (r : Report) : SiteDoc :=
  { title := reportTitleT r.jobName r.aiReport
    page1Cells := gridFrom fs 0 (r.photos.take 9)
    extraCells :=
      if r.photos.length > 9 then gridFrom fs 9 (r.photos.drop 9) else []
    breakdown := entriesGo (photoSectionsOf r.aiReport r.photos) 0 r.photos
    recommendedServices := servicesOf r.aiReport
    additionalNotes := notesOf r.aiReport }

/-- All grid cells of a document in reading order. -/
def allCells (d : SiteDoc) : List GridCell := d.page1Cells ++ d.extraCells

/-! ## POST /api/reports (report creation) -/

/-- One entry of the client's `photoDescriptions` array. Absent JS object
fields are modelled by their falsy defaults (empty strings); the handler
itself applies `|| ''`, `|| 'text'`. -/
structure DescEntry where
  description : String
  type : String
  voiceFile : String
deriving DecidableEq

/-- The raw `photoDescriptions` form field after `JSON.parse`: a JSON
array, some non-array JSON value, or a parse failure. -/
inductive PDRaw
  | arr (l : List DescEntry)
  | nonArray
  | malformed
deriving DecidableEq

/-- One uploaded voice file (multer record: original client name and the
server-side path). -/
structure VoiceFile where
  originalname : String
  path : String
deriving DecidableEq

/-- A creation request as the handler sees it: form fields plus the two
multer file arrays. -/
structure CreateReq where
  jobName : String
  clientName : String
  address : String
  date : String
  photoFiles : List String
  voiceFiles : List VoiceFile
  photoDescriptions : PDRaw
deriving DecidableEq

/-- Handler outcome: 201 with the created report, or a 400 validation
response with the error message. -/
inductive CreateRes
  | created (r : Report)
  | badRequest (msg : String)
deriving DecidableEq

/-- Is the outcome a 400 rejection? -/
def CreateRes.isBadRequest : CreateRes → Bool
  | .badRequest _ => true
  | _ => false

/-- `voiceFiles.find(f => f.originalname === voiceFileName)`. -/
def findVoice (vfs : List VoiceFile) (name : String) : Option VoiceFile :=
  vfs.find? (fun f => f.originalname = name)

/-- The per-photo build loop. `tr` is the transcription collaborator
(`readFileSync` + `speechToText`): `some t` is a successful transcription
`t`, `none` models a throw, which the handler swallows by leaving the
typed description and an empty transcription. A voice entry whose audio
file is not among the uploads aborts the whole request with 400. -/
def buildPhotos (tr : String → Option String) (vfs : List VoiceFile) :
    Nat → List (String × DescEntry) → Except String (List Photo)
  | _, [] => .ok []
  | idx, (path, d) :: rest =>
    let ty := if d.type = "" then "text" else d.type
    if ty = "voice" ∧ d.voiceFile ≠ "" then
      match findVoice vfs d.voiceFile with
      | none =>
        .error ("Audio file " ++ d.voiceFile ++ " not found for photo at index "
          ++ toString idx ++ ".")
      | some af =>
        let pair := match tr af.path with
          | some t => (t, t)
          | none => (d.description, "")
        (buildPhotos tr vfs (idx + 1) rest).map
          (fun ps => ⟨path, pair.1, ty, pair.2⟩ :: ps)
    else
      (buildPhotos tr vfs (idx + 1) rest).map
        (fun ps => ⟨path, d.description, ty, ""⟩ :: ps)

/-- The creation handler. `tr` is the transcription collaborator, `now`
the server date used when the request has none, `newId` the
`Date.now().toString()` identifier. Returns the response and the new
store contents. -/
def createReport (tr : String → Option String) (now newId : String)
    (req : CreateReq) (store : List Report) : CreateRes × List Report :=
  let parsed : PDRaw := match req.photoDescriptions with
    | .malformed => .arr []
    | x => x
  if req.jobName = "" ∨ req.clientName = "" ∨ req.address = "" then
    (.badRequest "Missing required fields", store)
  else if req.photoFiles.length < 1 ∨ req.photoFiles.length > 20 then
    (.badRequest "You must upload between 1 and 20 photos.", store)
  else
    match parsed with
    | .malformed => (.badRequest "photoDescriptions array must match number of uploaded images.", store)
    | .nonArray => (.badRequest "photoDescriptions array must match number of uploaded images.", store)
    | .arr l =>
      if l.length ≠ req.photoFiles.length then
        (.badRequest "photoDescriptions array must match number of uploaded images.", store)
      else
        match buildPhotos tr req.voiceFiles 0 (req.photoFiles.zip l) with
        | .error msg => (.badRequest msg, store)
        | .ok photos =>
          let r : Report :=
            { id := newId, jobName := req.jobName, clientName := req.clientName
              address := req.address
              date := if req.date = "" then now else req.date
              photos := photos, status := "draft", aiReport := none }
          (.created r, store ++ [r])

/-- The normalized `photoDescriptions` value is an array matching the
number of uploaded photos (what the handler's array check demands). -/
def descLenOk (req : CreateReq) : Prop :=
  match (match req.photoDescriptions with | .malformed => PDRaw.arr [] | x => x) with
  | .arr l => l.length = req.photoFiles.length
  | _ => False

instance (req : CreateReq) : Decidable (descLenOk req) := by
  unfold descLenOk
  rcases req.photoDescriptions with l | _ | _ <;> simp <;> infer_instance

/-- Every voice-annotated entry has its audio among the uploads. -/
def voicesOk (req : CreateReq) : Prop :=
  ∀ d ∈ (match req.photoDescriptions with
          | .arr l => l
          | _ => ([] : List DescEntry)),
    ((if d.type = "" then "text" else d.type) = "voice" ∧ d.voiceFile ≠ "") →
      (findVoice req.voiceFiles d.voiceFile).isSome

/-! ## POST /api/reports/:id/analyze -/

/-- Analyze endpoint outcome. -/
inductive AnalyzeRes
  | notFound
  | okCached (ai : Option String)
  | okNew (t : String)
  | serverError (msg : String)
deriving DecidableEq

/-- The argument list passed to the narrative collaborator:
`report.photos.map(photo => ({description, type, transcription}))`. -/
def analyzeArgs (r : Report) : List (String × String × String) :=
  r.photos.map (fun p => (p.description, p.type, p.transcription))

/-- `reports.find(...)` followed by `report.aiReport = aiReport` mutates
the first store entry with this id; everything else is untouched. -/
def setAiFirst : List Report → String → String → List Report
  | [], _, _ => []
  | r :: rest, rid, t =>
    if r.id = rid then { r with aiReport := some t } :: rest
    else r :: setAiFirst rest rid t

/-- The analyze handler. `gen` is the narrative-generation collaborator:
`some t` is a successful generation, `none` a throw (surfaced as a 500
response with the store untouched). -/
def analyzeHandler (gen : List (String × String × String) → Option String)
    (store : List Report) (rid : String) (force : Bool) :
    AnalyzeRes × List Report :=
  match store.find? (fun r => r.id = rid) with
  | none => (.notFound, store)
  | some r =>
    if truthyOpt r.aiReport ∧ ¬force then (.okCached r.aiReport, store)
    else
      match gen (analyzeArgs r) with
      | none => (.serverError "Failed to analyze report", store)
      | some t => (.okNew t, setAiFirst store rid t)

/-! ## GET /api/reports/:id/pdf -/

/-- PDF endpoint outcome: 404 or the assembled document streamed back. -/
inductive PdfRes
  | notFound
  | download (d : SiteDoc)
deriving DecidableEq

/-- The PDF handler: look the report up and run the assembler; nothing in
the store is written. -/
def pdfHandler (fs : String → FileState) (store : List Report)
    (rid : String) : PdfRes × List Report :=
  match store.find? (fun r => r.id = rid) with
  | none => (.notFound, store)
  | some r => (.download (assembleDoc fs r), store)

/-! ## PATCH /api/reports/:id -/

/-- A patch body: for each report key the handler can see, `some v` means
the key is present in `req.body` with value `v` (every such key passes the
`key in report` test and is copied onto the report). -/
structure PatchBody where
  id : Option String
  jobName : Option String
  clientName : Option String
  address : Option String
  date : Option String
  status : Option String
  aiReport : Option String
  photos : Option (List Photo)
deriving DecidableEq

/-- `Object.keys(req.body).forEach(key => { if (key in report) report[key] =
req.body[key]; })` — every provided key overwrites the stored field,
including `id`. -/
def applyPatch (r : Report) (b : PatchBody) : Report :=
  { id := b.id.getD r.id
    jobName := b.jobName.getD r.jobName
    clientName := b.clientName.getD r.clientName
    address := b.address.getD r.address
    date := b.date.getD r.date
    status := b.status.getD r.status
    aiReport := match b.aiReport with
      | some v => some v
      | none => r.aiReport
    photos := b.photos.getD r.photos }

/-- Patch endpoint outcome. -/
inductive PatchRes
  | notFound
  | okPatched (r : Report)
deriving DecidableEq

/-- In-place mutation of the first report found with this id. -/
def patchFirst : List Report → String → PatchBody → List Report
  | [], _, _ => []
  | r :: rest, rid, b =>
    if r.id = rid then applyPatch r b :: rest
    else r :: patchFirst rest rid b

/-- The PATCH handler. -/
def patchHandler (store : List Report) (rid : String) (b : PatchBody) :
    PatchRes × List Report :=
  match store.find? (fun r => r.id = rid) with
  | none => (.notFound, store)
  | some r => (.okPatched (applyPatch r b), patchFirst store rid b)

/-! ## Helper lemmas -/

theorem gridFrom_getElem? (fs : String → FileState) :
    ∀ (ps : List Photo) (base i : Nat),
      (gridFrom fs base ps)[i]? =
        ps[i]?.map (fun p =>
          ⟨renderCell fs p.path, ("Photo " ++ toString (base + i + 1)).data⟩) := by
  intro ps
  induction ps with
  | nil => intro base i; simp [gridFrom]
  | cons p rest ih =>
    intro base i
    cases i with
    | zero => simp [gridFrom]
    | succ j =>
      simp only [gridFrom, List.getElem?_cons_succ]
      rw [ih (base + 1) j]
      have : base + 1 + j = base + (j + 1) := by omega
      rw [this]

theorem entriesGo_getElem? (secs : List Text) :
    ∀ (ps : List Photo) (b i : Nat),
      (entriesGo secs b ps)[i]? =
        ps[i]?.map (fun p => mkEntry (b + i) p (secs[b + i]?.getD [])) := by
  intro ps
  induction ps with
  | nil => intro b i; simp [entriesGo]
  | cons p rest ih =>
    intro b i
    cases i with
    | zero => simp [entriesGo]
    | succ j =>
      simp only [entriesGo, List.getElem?_cons_succ]
      rw [ih (b + 1) j]
      have : b + 1 + j = b + (j + 1) := by omega
      rw [this]

theorem gridFrom_length (fs : String → FileState) :
    ∀ (ps : List Photo) (base : Nat), (gridFrom fs base ps).length = ps.length := by
  intro ps
  induction ps with
  | nil => intro base; simp [gridFrom]
  | cons p rest ih => intro base; simp [gridFrom, ih]

theorem entriesGo_length (secs : List Text) :
    ∀ (ps : List Photo) (b : Nat), (entriesGo secs b ps).length = ps.length := by
  intro ps
  induction ps with
  | nil => intro b; simp [entriesGo]
  | cons p rest ih => intro b; simp [entriesGo, ih]

/-- Index characterization of the full grid (first-page cells followed by
the overflow cells): photo `i` is always rendered in cell `i` with the
caption `Photo i+1`. -/
theorem allCells_getElem? (fs : String → FileState) (r : Report) (i : Nat)
    (h : i < r.photos.length) :
    (allCells (assembleDoc fs r))[i]? =
      some ⟨renderCell fs (r.photos.get ⟨i, h⟩).path,
            ("Photo " ++ toString (i + 1)).data⟩ := by
  have hget : r.photos[i]? = some (r.photos.get ⟨i, h⟩) := by
    simp [List.getElem?_eq_getElem h]
  by_cases h9 : i < 9
  · have hlen : i < (gridFrom fs 0 (r.photos.take 9)).length := by
      rw [gridFrom_length]
      simp [List.length_take]
      omega
    simp only [allCells, assembleDoc]
    rw [List.getElem?_append_left hlen, gridFrom_getElem?]
    rw [List.getElem?_take_of_lt h9, hget]
    simp
  · have hgt : r.photos.length > 9 := by omega
    have hlen9 : (gridFrom fs 0 (r.photos.take 9)).length = 9 := by
      rw [gridFrom_length]
      simp [List.length_take]
      omega
    simp only [allCells, assembleDoc, if_pos hgt]
    rw [List.getElem?_append_right (by omega), gridFrom_getElem?]
    rw [hlen9, List.getElem?_drop]
    have h1 : 9 + (i - 9) = i := by omega
    rw [h1, hget]
    have h2 : 9 + (i - 9) + 1 = i + 1 := by omega
    simp [h2]

/-- `setAiFirst` only touches the `aiReport` field of the first matching
report. -/
theorem setAiFirst_erase (rid t : String) :
    ∀ l : List Report,
      (setAiFirst l rid t).map (fun x => { x with aiReport := none }) =
        l.map (fun x => { x with aiReport := none }) := by
  intro l
  induction l with
  | nil => simp [setAiFirst]
  | cons r rest ih =>
    by_cases h : r.id = rid
    · simp [setAiFirst, h]
    · simp [setAiFirst, h, ih]

/-- `setAiFirst` preserves every report's id. -/
theorem setAiFirst_map_id (rid t : String) :
    ∀ l : List Report, (setAiFirst l rid t).map Report.id = l.map Report.id := by
  intro l
  induction l with
  | nil => simp [setAiFirst]
  | cons r rest ih =>
    by_cases h : r.id = rid
    · simp [setAiFirst, h]
    · simp [setAiFirst, h, ih]

/-! ## Claim theorems -/

/-- C1: the breakdown pairs evidence and narrative sections by list
position — the item at index `i` of the report's photo list is rendered
with the section at index `i` of the parsed section list, and the `i`-th
grid cell carries the caption `Photo i+1` — for every report and every
narrative text, regardless of the photo numbers written inside the
sections. -/
theorem C1_positional_alignment (fs : String → FileState) (r : Report)
    (t : String) (i : Nat) (h : i < r.photos.length)
    (hai : r.aiReport = some t) (hne : parseSections t.data ≠ []) :
    (assembleDoc fs r).breakdown[i]? =
      some (mkEntry i (r.photos.get ⟨i, h⟩) ((parseSections t.data)[i]?.getD []))
    ∧ (allCells (assembleDoc fs r))[i]? =
      some ⟨renderCell fs (r.photos.get ⟨i, h⟩).path,
            ("Photo " ++ toString (i + 1)).data⟩ := by
  refine ⟨?_, allCells_getElem? fs r i h⟩
  have ht : t ≠ "" := by
    intro he
    apply hne
    rw [he]
    rfl
  have hsec : photoSectionsOf r.aiReport r.photos = parseSections t.data := by
    have hp : parsedSectionsOf r.aiReport = parseSections t.data := by
      simp [parsedSectionsOf, hai, truthyOpt, ht]
    simp [photoSectionsOf, hp, List.length_eq_zero, hne]
  simp only [assembleDoc, hsec]
  rw [entriesGo_getElem?]
  simp [List.getElem?_eq_getElem h]

/-- C1 witness: a two-photo report whose narrative mislabels the photo
numbers (`Photo 99:` then `Photo 1:`) is still aligned positionally. -/
def fsOkW : String → FileState := fun _ => .ok

def phA : Photo := ⟨"pa.jpg", "cracked tile", "text", ""⟩

def phB : Photo := ⟨"pb.jpg", "leaking pipe", "text", ""⟩

def narrMis : String := "Heading line\nPhoto 99: first text Photo 1: second text"

def rMis : Report :=
  ⟨"1", "Job", "Client", "Addr", "2024-01-01", [phA, phB], "draft", some narrMis⟩

/-- Witness for C1 at the mislabeled-narrative report. -/
theorem C1_witness :
    (assembleDoc fsOkW rMis).breakdown[1]? =
      some (mkEntry 1 (rMis.photos.get ⟨1, by decide⟩)
        ((parseSections narrMis.data)[1]?.getD []))
    ∧ (allCells (assembleDoc fsOkW rMis))[1]? =
      some ⟨renderCell fsOkW (rMis.photos.get ⟨1, by decide⟩).path,
            ("Photo " ++ toString (1 + 1)).data⟩ :=
  C1_positional_alignment fsOkW rMis narrMis 1 (by decide) rfl (by decide)

/-- C7: a missing image file renders as the `Photo not available`
placeholder, a file whose draw throws renders as the distinct
`Error loading photo` placeholder, a readable file renders as the image;
every cell is rendered and assembly always produces the complete document
(in particular a breakdown entry for every photo). -/
theorem C7_missing_file_resilience (fs : String → FileState) (r : Report)
    (i : Nat) (h : i < r.photos.length) :
    (allCells (assembleDoc fs r))[i]? =
      some ⟨renderCell fs (r.photos.get ⟨i, h⟩).path,
            ("Photo " ++ toString (i + 1)).data⟩
    ∧ (∀ p, fs p = .missing → renderCell fs p = .missingFile)
    ∧ (∀ p, fs p = .corrupt → renderCell fs p = .renderError)
    ∧ (∀ p, fs p = .ok → renderCell fs p = .image p)
    ∧ Cell.missingFile ≠ Cell.renderError
    ∧ (assembleDoc fs r).breakdown.length = r.photos.length := by
  refine ⟨allCells_getElem? fs r i h, ?_, ?_, ?_, by simp, ?_⟩
  · intro p hp; simp [renderCell, hp]
  · intro p hp; simp [renderCell, hp]
  · intro p hp; simp [renderCell, hp]
  · simp [assembleDoc, entriesGo_length]

/-- File-system oracle with every path absent. -/
def fsMissW : String → FileState := fun _ => .missing

/-- One-photo report used for the C7 witness. -/
def rMiss : Report :=
  ⟨"1", "Job", "Client", "Addr", "2024-01-01", [phA], "draft", none⟩

/-- Witness for C7: a report whose single image file is missing still
assembles, with the missing-file placeholder in its cell. -/
theorem C7_witness :
    (allCells (assembleDoc fsMissW rMiss))[0]? =
      some ⟨renderCell fsMissW (rMiss.photos.get ⟨0, by decide⟩).path,
            ("Photo " ++ toString (0 + 1)).data⟩
    ∧ (∀ p, fsMissW p = .missing → renderCell fsMissW p = .missingFile)
    ∧ (∀ p, fsMissW p = .corrupt → renderCell fsMissW p = .renderError)
    ∧ (∀ p, fsMissW p = .ok → renderCell fsMissW p = .image p)
    ∧ Cell.missingFile ≠ Cell.renderError
    ∧ (assembleDoc fsMissW rMiss).breakdown.length = rMiss.photos.length :=
  C7_missing_file_resilience fsMissW rMiss 0 (by decide)

/-- C8: the PDF endpoint is a pure read — it returns the store unchanged,
and running it a second time on the unchanged store produces the identical
outcome (in particular the identical assembled document). -/
theorem C8_pure_idempotent_assembly (fs : String → FileState)
    (store : List Report) (rid : String) :
    (pdfHandler fs store rid).2 = store
    ∧ pdfHandler fs ((pdfHandler fs store rid).2) rid = pdfHandler fs store rid := by
  have h2 : (pdfHandler fs store rid).2 = store := by
    cases h : store.find? (fun r => r.id = rid) <;> simp [pdfHandler, h]
  exact ⟨h2, by rw [h2]⟩

/-- The head of the line split is the maximal newline-free prefix. -/
theorem linesOf_headI : ∀ l : Text,
    (linesOf l).headI = l.takeWhile (fun c => c ≠ '\n') := by
  intro l
  induction l with
  | nil => simp [linesOf]
  | cons c rest ih =>
    by_cases hc : c = '\n'
    · simp [linesOf, hc]
    · simp [linesOf, hc, ih]

/-- Modelled from the claim's wording for C3 (not from the source): the
heading is the first non-empty line of the narrative with asterisks and
surrounding whitespace stripped, defaulting to `Site Inspection Report`
when the narrative is null or empty. -/
def claimHeading (ai : Option String) : Text :=
  match ai with
  | none => ("Site Inspection Report").data
  | some t =>
    if t.data = [] then ("Site Inspection Report").data
    else
      match (linesOf t.data).find? (fun l => !(trimText l).isEmpty) with
      | some l => stripTrim l
      | none => ("Site Inspection Report").data

/-- C3 counterexample: the assembler's title keeps the asterisks of a long
first line, and for a null narrative falls back to the job name — in both
cases differing from the claimed heading rule. -/
theorem C3_counterexample :
    reportTitleT "Roof Job" (some "**Kitchen Water Damage**")
      ≠ claimHeading (some "**Kitchen Water Damage**")
    ∧ reportTitleT "Roof Job" none ≠ claimHeading none := by decide

/-- C3 amended: the title is the raw first line of `aiReport`, trimmed
(asterisks retained), used only when non-empty and longer than 10
characters; otherwise it is `jobName`, or `Property Inspection Report`
when `jobName` is empty; the same fallback applies when `aiReport` is null
or empty, in which case the parsed section list is also empty. -/
theorem C3_amended_title (jn : String) (ai : Option String) :
    (truthyOpt ai = false →
      reportTitleT jn ai =
        (if jn.data ≠ [] then jn.data else ("Property Inspection Report").data))
    ∧ (∀ t : String, ai = some t → t ≠ "" →
        reportTitleT jn ai =
          (if trimText (t.data.takeWhile (fun c => c ≠ '\n')) ≠ []
              ∧ (trimText (t.data.takeWhile (fun c => c ≠ '\n'))).length > 10
           then trimText (t.data.takeWhile (fun c => c ≠ '\n'))
           else if jn.data ≠ [] then jn.data
                else ("Property Inspection Report").data))
    ∧ parsedSectionsOf none = [] := by
  refine ⟨?_, ?_, rfl⟩
  · intro hfal
    simp [reportTitleT, hfal]
  · intro t hai ht
    subst hai
    simp [reportTitleT, truthyOpt, ht, linesOf_headI]

/-- Witness for C3 at two concrete inputs: a null narrative (title falls
back to the job name) and a long single-line narrative (title is its
trimmed first line). -/
theorem C3_witness :
    (reportTitleT "Roof Job" none =
      (if ("Roof Job").data ≠ [] then ("Roof Job").data
       else ("Property Inspection Report").data))
    ∧ (reportTitleT "Roof Job" (some "Water damage at the north wall") =
        (if trimText (("Water damage at the north wall").data.takeWhile
              (fun c => c ≠ '\n')) ≠ []
            ∧ (trimText (("Water damage at the north wall").data.takeWhile
                (fun c => c ≠ '\n'))).length > 10
         then trimText (("Water damage at the north wall").data.takeWhile
                (fun c => c ≠ '\n'))
         else if ("Roof Job").data ≠ [] then ("Roof Job").data
              else ("Property Inspection Report").data)) :=
  ⟨(C3_amended_title "Roof Job" none).1 rfl,
   (C3_amended_title "Roof Job" (some "Water damage at the north wall")).2.1
     "Water damage at the north wall" rfl (by decide)⟩

/-- Report exhibiting the C4 divergence: one photo with a description and
a narrative containing no `Photo N:` marker. -/
def c4Report : Report :=
  ⟨"1", "Job", "Client", "Addr", "2024-01-01",
   [⟨"p1.jpg", "cracked tile", "text", ""⟩], "draft",
   some "General overview of the site"⟩

/-- C4: with zero `Photo N:` markers the parsed section list is empty and
assembly completes without error, but the synthetic fallback section
(`Photo 1:\ncracked tile`) contains no field label, so the label-anchored
renderer emits an empty field list — the photo's own description is never
rendered in the breakdown entry, contrary to the documented fallback. -/
theorem C4_fallback_drops_description :
    parsedSectionsOf c4Report.aiReport = []
    ∧ (assembleDoc fsOkW c4Report).breakdown =
        [⟨("Photo 1:").data, EntryBody.fields []⟩] := by decide

/-- Distance walked before one of `others` starts (or the text ends):
the structural companion of the lazy capture. -/
def stopLen (others : List Text) : Text → Nat
  | [] => 0
  | c :: rest =>
    if others.any (fun o => o.isPrefixOf (c :: rest)) then 0
    else 1 + stopLen others rest

/-- The lazy capture takes exactly one character plus the run up to the
first position (strictly after that character) where one of `others`
starts or the text ends. -/
theorem engineCapture_eq_take (others : List Text) :
    ∀ (rest : Text) (c : Char),
      engineCapture others (c :: rest) =
        some (c :: rest.take (stopLen others rest)) := by
  intro rest
  induction rest with
  | nil => intro c; simp [engineCapture, stopLen]
  | cons d r2 ih =>
    intro c
    rw [engineCapture]
    by_cases hAny : (others.any fun o => o.isPrefixOf (d :: r2)) = true
    · simp [hAny, stopLen]
    · rw [if_neg (by simp [hAny]), ih d]
      simp only [stopLen, hAny, Bool.false_eq_true, if_false, Option.map_some]
      have hc : (1 : Nat) + stopLen others r2 = stopLen others r2 + 1 :=
        Nat.add_comm _ _
      rw [hc, List.take_succ_cons]
      rfl

/-- Position search written from the amended claim's wording: the smallest
index in the remaining text where one of the other labels occurs, or the
text's length when none does. -/
def nextStop (others : List Text) (l : Text) : Nat :=
  match (List.range l.length).find?
      (fun k => others.any (fun o => o.isPrefixOf (l.drop k))) with
  | some k => k
  | none => l.length

theorem stopLen_eq_nextStop (others : List Text) :
    ∀ l : Text, stopLen others l = nextStop others l := by
  intro l
  induction l with
  | nil => simp [stopLen, nextStop]
  | cons c rest ih =>
    by_cases hAny : (others.any fun o => o.isPrefixOf (c :: rest)) = true
    · simp [stopLen, nextStop, List.range_succ_eq_map, List.find?_cons, hAny]
    · simp only [stopLen, hAny, Bool.false_eq_true, if_false, nextStop,
        List.length_cons, List.range_succ_eq_map, List.find?_cons,
        List.drop_zero, List.find?_map, Function.comp_def,
        Nat.succ_eq_add_one, List.drop_succ_cons]
      cases hFind : List.find?
          (fun k => others.any fun o => o.isPrefixOf (rest.drop k))
          (List.range rest.length) with
      | none =>
        rw [ih]
        simp [nextStop, hFind, hAny, Nat.add_comm]
      | some k =>
        rw [ih]
        simp [nextStop, hFind, hAny, Nat.add_comm]

/-- The amended-spec field value: the stripped substring starting one
character after the label's first occurrence and running to the next
occurrence of one of the other labels (searched from that character on) or
to the end of the text; absent when the label is missing or is the final
text. -/
def fieldValueSpec (lab : Text) (others : List Text) (s : Text) : Option Text :=
  match findSub lab s with
  | none => none
  | some i =>
    match s.drop (i + lab.length) with
    | [] => none
    | c :: rest => some (stripTrim (c :: rest.take (nextStop others rest)))

/-- Modelled from the claim's wording for C5 (not from the source): the
value is the substring after the label running up to the next occurring
label or the end of the text, asterisks and whitespace stripped. -/
def claimFieldValue (lab : Text) (others : List Text) (s : Text) : Option Text :=
  match findSub lab s with
  | none => none
  | some i =>
    let tail := s.drop (i + lab.length)
    some (stripTrim (tail.take (nextStop others tail)))

/-- C5 counterexample: in `Priority Level:Safety Concerns: High` the
extracted Priority Level value is `Safety Concerns: High` — the capture
runs past the immediately-following label because the regex requires at
least one value character — whereas the claimed rule stops at the next
occurring label and yields the empty value. -/
theorem C5_counterexample :
    extractField (labelOf .priority) (othersOf .priority)
        ("Priority Level:Safety Concerns: High").data
      = some (("Safety Concerns: High").data)
    ∧ claimFieldValue (labelOf .priority) (othersOf .priority)
        ("Priority Level:Safety Concerns: High").data = some []
    ∧ (("Safety Concerns: High").data : Text) ≠ [] := by decide

/-- C5 amended: for every label, every lookahead set and every section
text, the extraction is label-anchored and order-independent — absent
exactly when the label is missing or nothing follows it, and otherwise the
stripped substring from one character after the label to the next
occurrence of one of the other labels (at distance at least one) or the
end of text; each field is computed independently by this same rule, so a
missing label leaves every other field's value unchanged. -/
theorem C5_field_extraction (lab : Text) (others : List Text) (s : Text) :
    extractField lab others s = fieldValueSpec lab others s := by
  rcases hf : findSub lab s with _ | i
  · simp [extractField, fieldValueSpec, hf]
  · rcases hd : s.drop (i + lab.length) with _ | ⟨c, rest⟩
    · simp [extractField, fieldValueSpec, hf, hd, engineCapture]
    · simp [extractField, fieldValueSpec, hf, hd, engineCapture_eq_take,
        stopLen_eq_nextStop]

/-- C6: the analyze step is atomic — when the narrative-generation
collaborator throws, the error is surfaced and the store (in particular
the report's `aiReport`) is exactly as before the call; only on success is
`aiReport` set to the generated text, with every other field of every
report left unchanged. -/
theorem C6_analyze_atomicity
    (gen : List (String × String × String) → Option String)
    (store : List Report) (rid : String) (force : Bool) (r : Report)
    (hfind : store.find? (fun x => x.id = rid) = some r)
    (hgo : truthyOpt r.aiReport = false ∨ force = true) :
    (gen (analyzeArgs r) = none →
      analyzeHandler gen store rid force =
        (.serverError "Failed to analyze report", store))
    ∧ (∀ t, gen (analyzeArgs r) = some t →
        analyzeHandler gen store rid force = (.okNew t, setAiFirst store rid t)
        ∧ (setAiFirst store rid t).map (fun x => { x with aiReport := none })
            = store.map (fun x => { x with aiReport := none })
        ∧ (setAiFirst store rid t).map Report.id = store.map Report.id) := by
  have himp : truthyOpt r.aiReport = true → force = true := by
    rcases hgo with h | h
    · intro ht
      rw [h] at ht
      exact absurd ht (by simp)
    · intro hx
      exact h
  constructor
  · intro hn
    simp only [analyzeHandler, hfind]
    rw [if_neg (by intro hc; exact absurd (himp hc.1) hc.2)]
    simp [hn]
  · intro t ht
    refine ⟨?_, setAiFirst_erase rid t store, setAiFirst_map_id rid t store⟩
    simp only [analyzeHandler, hfind]
    rw [if_neg (by intro hc; exact absurd (himp hc.1) hc.2)]
    simp [ht]

/-- Narrative collaborator that always throws. -/
def genNoneW : List (String × String × String) → Option String := fun _ => none

/-- One-photo, not-yet-analyzed report for the C6 witness. -/
def r6 : Report := ⟨"7", "Job", "Client", "Addr", "2024-01-01", [phA], "draft", none⟩

/-- Witness for C6: a throwing collaborator surfaces the error and leaves
the one-report store untouched. -/
theorem C6_witness :
    analyzeHandler genNoneW [r6] "7" false =
      (.serverError "Failed to analyze report", [r6]) :=
  (C6_analyze_atomicity genNoneW [r6] "7" false r6 (by decide)
    (Or.inl (by decide))).1 rfl

/-- `patchFirst` with a body that does not provide `id` preserves every
report's id. -/
theorem patchFirst_map_id (rid : String) (b : PatchBody) (hid : b.id = none) :
    ∀ l : List Report, (patchFirst l rid b).map Report.id = l.map Report.id := by
  intro l
  induction l with
  | nil => simp [patchFirst]
  | cons r rest ih =>
    by_cases h : r.id = rid
    · simp [patchFirst, h, applyPatch, hid]
    · simp [patchFirst, h, ih]

/-- Report used in the C9 counterexample and witness. -/
def r9 : Report := ⟨"1", "Job", "Client", "Addr", "2024-01-01", [], "draft", none⟩

/-- Patch body that provides a new id. -/
def pb9 : PatchBody := ⟨some "2", none, none, none, none, none, none, none⟩

/-- C9 counterexample: a PATCH whose body contains an `id` key overwrites
the stored report's id (the handler copies every body key that exists on
the report, and `id` does), so the id is not immutable. -/
theorem C9_counterexample :
    (patchHandler [r9] "1" pb9).2.map Report.id ≠ [r9].map Report.id := by
  decide

/-- C9 amended: the id is generated at creation and preserved by the
analyze and PDF operations and by every PATCH whose body does not contain
an `id` key; a PATCH body containing `id`, however, overwrites it. -/
theorem C9_id_immutability (store : List Report) (rid : String)
    (b : PatchBody) (gen : List (String × String × String) → Option String)
    (force : Bool) (fs : String → FileState) (hid : b.id = none) :
    (patchHandler store rid b).2.map Report.id = store.map Report.id
    ∧ (analyzeHandler gen store rid force).2.map Report.id = store.map Report.id
    ∧ (pdfHandler fs store rid).2 = store := by
  refine ⟨?_, ?_, ?_⟩
  · cases h : store.find? (fun x => x.id = rid) with
    | none => simp [patchHandler, h]
    | some r => simp [patchHandler, h, patchFirst_map_id rid b hid]
  · cases h : store.find? (fun x => x.id = rid) with
    | none => simp [analyzeHandler, h]
    | some r =>
      simp only [analyzeHandler, h]
      split
      · simp
      · cases hg : gen (analyzeArgs r) with
        | none => simp [hg]
        | some t => simp [hg, setAiFirst_map_id]
  · cases h : store.find? (fun x => x.id = rid) with
    | none => simp [pdfHandler, h]
    | some r => simp [pdfHandler, h]

/-- Patch body that only replaces the job name. -/
def pbJob : PatchBody := ⟨none, some "NewJob", none, none, none, none, none, none⟩

/-- Narrative collaborator that always succeeds. -/
def genOkW : List (String × String × String) → Option String :=
  fun _ => some "AI text"

/-- Witness for C9 at a concrete store: a job-name-only patch, an analyze
call and a PDF call all preserve the stored id. -/
theorem C9_witness :
    (patchHandler [r9] "1" pbJob).2.map Report.id = [r9].map Report.id
    ∧ (analyzeHandler genOkW [r9] "1" false).2.map Report.id
        = [r9].map Report.id
    ∧ (pdfHandler fsOkW [r9] "1").2 = [r9] :=
  C9_id_immutability [r9] "1" pbJob genOkW false fsOkW rfl

instance (req : CreateReq) : Decidable (voicesOk req) := by
  unfold voicesOk
  rcases req.photoDescriptions with l | _ | _ <;> exact List.decidableBAll _ _

/-- When every voice-annotated entry has its audio among the uploads, the
photo build loop completes (transcription failures are swallowed, not
surfaced). -/
theorem buildPhotos_ok (tr : String → Option String) (vfs : List VoiceFile) :
    ∀ (pairs : List (String × DescEntry)) (idx : Nat),
      (∀ pd ∈ pairs,
        ((if pd.2.type = "" then "text" else pd.2.type) = "voice"
            ∧ pd.2.voiceFile ≠ "") →
          (findVoice vfs pd.2.voiceFile).isSome) →
      ∃ ps, buildPhotos tr vfs idx pairs = .ok ps := by
  intro pairs
  induction pairs with
  | nil => intro idx h; exact ⟨[], rfl⟩
  | cons pd rest ih =>
    intro idx h
    obtain ⟨ps, hps⟩ := ih (idx + 1) (fun x hx => h x (List.mem_cons_of_mem _ hx))
    obtain ⟨path, d⟩ := pd
    by_cases hv : ((if d.type = "" then "text" else d.type) = "voice"
        ∧ d.voiceFile ≠ "")
    · have hsome := h (path, d) (List.mem_cons_self _ _) hv
      cases haf : findVoice vfs d.voiceFile with
      | none => rw [haf] at hsome; simp at hsome
      | some af =>
        simp [buildPhotos, hv, haf, hps, Except.map]
    · simp [buildPhotos, hv, hps, Except.map]

/-- C2: creation with 0 or 21 uploaded photos is rejected with a 400
validation response and leaves the store unchanged; with 1 or 20 photos
and non-empty job metadata (and a matching `photoDescriptions` array whose
voice entries all resolve to an uploaded audio file — the handler's
remaining validations) exactly one report is appended. -/
theorem C2_creation_bounds (tr : String → Option String) (now newId : String)
    (req : CreateReq) (store : List Report) :
    ((req.photoFiles.length = 0 ∨ req.photoFiles.length = 21) →
      (createReport tr now newId req store).1.isBadRequest = true
      ∧ (createReport tr now newId req store).2 = store)
    ∧ ((req.photoFiles.length = 1 ∨ req.photoFiles.length = 20) →
      req.jobName ≠ "" → req.clientName ≠ "" → req.address ≠ "" →
      descLenOk req → voicesOk req →
      ∃ rep, (createReport tr now newId req store).1 = .created rep
        ∧ (createReport tr now newId req store).2 = store ++ [rep]) := by
  constructor
  · intro hlen
    by_cases hm : req.jobName = "" ∨ req.clientName = "" ∨ req.address = ""
    · simp [createReport, hm, CreateRes.isBadRequest]
    · rcases hlen with h0 | h21
      · have hnil : req.photoFiles = [] := List.length_eq_zero.mp h0
        simp [createReport, hm, hnil, CreateRes.isBadRequest]
      · simp [createReport, hm, h21, CreateRes.isBadRequest]
  · intro hlen hj hc ha hdesc hvoice
    have hm : ¬(req.jobName = "" ∨ req.clientName = "" ∨ req.address = "") := by
      simp [hj, hc, ha]
    have hnil : req.photoFiles ≠ [] := by
      intro he
      rcases hlen with h | h <;> (rw [he] at h; simp at h)
    have hle : ¬20 < req.photoFiles.length := by
      rcases hlen with h | h <;> omega
    cases hpd : req.photoDescriptions with
    | nonArray =>
      exfalso
      unfold descLenOk at hdesc
      rw [hpd] at hdesc
      exact hdesc
    | malformed =>
      exfalso
      unfold descLenOk at hdesc
      rw [hpd] at hdesc
      simp at hdesc
      rcases hlen with h | h <;> omega
    | arr l =>
      unfold descLenOk at hdesc
      rw [hpd] at hdesc
      simp only at hdesc
      have hbuild : ∃ ps,
          buildPhotos tr req.voiceFiles 0 (req.photoFiles.zip l) = .ok ps := by
        apply buildPhotos_ok
        intro pd hmem hcondv
        have h2 := (List.of_mem_zip hmem).2
        unfold voicesOk at hvoice
        rw [hpd] at hvoice
        exact hvoice pd.2 h2 hcondv
      obtain ⟨ps, hps⟩ := hbuild
      refine ⟨{ id := newId, jobName := req.jobName, clientName := req.clientName
                address := req.address
                date := if req.date = "" then now else req.date
                photos := ps, status := "draft", aiReport := none }, ?_, ?_⟩ <;>
        simp [createReport, hm, hnil, hle, hpd, hdesc, hps]

/-- C10: when the `photoDescriptions` field is not a JSON array whose
length equals the number of uploaded photos, creation is rejected with a
400 validation response and no report is appended. -/
theorem C10_descriptions_validation (tr : String → Option String)
    (now newId : String) (req : CreateReq) (store : List Report)
    (h : ¬descLenOk req) :
    (createReport tr now newId req store).1.isBadRequest = true
    ∧ (createReport tr now newId req store).2 = store := by
  by_cases hm : req.jobName = "" ∨ req.clientName = "" ∨ req.address = ""
  · simp [createReport, hm, CreateRes.isBadRequest]
  · by_cases hb : req.photoFiles.length < 1 ∨ req.photoFiles.length > 20
    · rcases hb with h0 | h21
      · have hnil : req.photoFiles = [] := by
          cases hcase : req.photoFiles with
          | nil => rfl
          | cons a as => rw [hcase] at h0; simp at h0
        simp [createReport, hm, hnil, CreateRes.isBadRequest]
      · have hnil : req.photoFiles ≠ [] := by
          intro he; rw [he] at h21; simp at h21
        simp [createReport, hm, hnil, h21, CreateRes.isBadRequest]
    · have hnil : req.photoFiles ≠ [] := by
        intro he
        apply hb
        left
        rw [he]
        simp
      have hle : ¬20 < req.photoFiles.length := by omega
      cases hpd : req.photoDescriptions with
      | nonArray =>
        simp [createReport, hm, hnil, hle, hpd, CreateRes.isBadRequest]
      | malformed =>
        have hzero : (0 : Nat) ≠ req.photoFiles.length := by
          have h1 : req.photoFiles.length ≠ 0 := by
            intro h0
            exact hnil (List.length_eq_zero.mp h0)
          omega
        simp [createReport, hm, hnil, hle, hpd, CreateRes.isBadRequest, hzero]
      | arr l =>
        have hne : l.length ≠ req.photoFiles.length := by
          unfold descLenOk at h
          rw [hpd] at h
          simpa using h
        simp [createReport, hm, hnil, hle, hpd, hne, CreateRes.isBadRequest]

/-- Transcription collaborator that always throws. -/
def trNoneW : String → Option String := fun _ => none

/-- Zero-photo creation request. -/
def req0 : CreateReq :=
  ⟨"Job", "Client", "Addr", "", [], [], .arr []⟩

/-- Valid one-photo creation request with a matching text description. -/
def req1 : CreateReq :=
  ⟨"Job", "Client", "Addr", "2024-01-01", ["p1.jpg"], [],
   .arr [⟨"cracked tile", "text", ""⟩]⟩

/-- Witness for C2: the zero-photo request is rejected with the store
unchanged, and the valid one-photo request appends exactly one report. -/
theorem C2_witness :
    ((createReport trNoneW "2024-01-01" "id1" req0 []).1.isBadRequest = true
      ∧ (createReport trNoneW "2024-01-01" "id1" req0 []).2 = [])
    ∧ ∃ rep, (createReport trNoneW "2024-01-01" "id1" req1 []).1 = .created rep
        ∧ (createReport trNoneW "2024-01-01" "id1" req1 []).2 = [] ++ [rep] :=
  ⟨(C2_creation_bounds trNoneW "2024-01-01" "id1" req0 []).1 (Or.inl (by decide)),
   (C2_creation_bounds trNoneW "2024-01-01" "id1" req1 []).2 (Or.inl (by decide))
     (by decide) (by decide) (by decide) (by decide) (by decide)⟩

/-- Request whose `photoDescriptions` field is valid JSON but not an
array. -/
def reqBadDesc : CreateReq :=
  ⟨"Job", "Client", "Addr", "2024-01-01", ["p1.jpg"], [], .nonArray⟩

/-- Witness for C10: the non-array `photoDescriptions` request is rejected
with the store unchanged. -/
theorem C10_witness :
    (createReport trNoneW "2024-01-01" "id1" reqBadDesc []).1.isBadRequest = true
    ∧ (createReport trNoneW "2024-01-01" "id1" reqBadDesc []).2 = [] :=
  C10_descriptions_validation trNoneW "2024-01-01" "id1" reqBadDesc []
    (by decide)

end SiteReport
